import Mathlib

/-!
Shallow embedding of `src/generator/create.py`, the one-shot mock-data
generator for an e-commerce dataset (users, categories, products,
product-category links, orders, product reviews).

Modelling conventions:
* Every call to the random / fake-data source is an explicit input: each
  generator takes a record of draws (`...Rand` structures) instead of
  reading a global PRNG.  `random.randint(a,b)` on draw `n` is modelled as
  `a + n % (b - a + 1)`, `random.choice(l)` as indexing `l` at `n % l.length`.
* Python floats carrying 2-decimal money values are modelled as exact
  rationals `ℚ`; `round(x, 2)` is `round2` (round half up to 2 decimals).
* Python `set` registries are modelled as `List String` with `∈`; `set.add`
  is cons.
* The unbounded `while v in registry:` retry loops are modelled with an
  explicit fuel parameter (`freshLoop`); running out of fuel yields `none`.
  The Python code itself has no cap, which is what the fuel-indexed model
  makes provable (see the termination claims below).
* Dates (`datetime` + `timedelta(days=k)`) are modelled as integer day
  counts `ℤ`.
-/

/-- Python `round(x, 2)` modelled on exact rationals: round half up to two
decimal places. -/
def round2 (q : ℚ) : ℚ := (⌊q * 100 + 1/2⌋ : ℚ) / 100

/-- Model of `random.randint(a, b)` (inclusive bounds) fed by draw `n`. -/
def randint (a b n : ℕ) : ℕ := a + n % (b - a + 1)

/-- Model of `random.choice(l)` fed by draw `n`; `d` is the (unreachable for
nonempty `l`) default. -/
def randChoice {α : Type} (l : List α) (d : α) (n : ℕ) : α :=
  l.getD (n % l.length) d

/-- Model of `random.sample(l, k)`: pick `k` distinct positions, removing each
picked element; the positions come from the draw stream `draws` starting at
index `i`. -/
def randSample {α : Type} : List α → ℕ → (ℕ → ℕ) → ℕ → List α
  | _, 0, _, _ => []
  | [], _ + 1, _, _ => []
  | a :: tl, k + 1, draws, i =>
      let l := a :: tl
      let j := draws i % l.length
      l.getD j a :: randSample (l.eraseIdx j) k draws (i + 1)

/-- The shared shape of every `value = gen(); while value in registry:
value = step(value)` loop in `create.py` (emails, slugs, SKUs, order
numbers).  `step i v` produces the next candidate from the current one
(`create.py` regenerates from scratch for emails/SKUs/order numbers and
appends a random suffix for slugs).  `fuel` bounds the model only: the
Python loop has no cap. -/
def freshLoop (reg : List String) (step : ℕ → String → String) :
    String → ℕ → ℕ → Option String
  | _, _, 0 => none
  | v, i, fuel + 1 =>
      if v ∈ reg then freshLoop reg step (step i v) (i + 1) fuel else some v

/-! ## 1. Users (`generate_user`, create.py lines 37-56) -/

/-- The `profile` sub-document of a user record. -/
structure Profile where
  age : Option ℕ
  country : String
  interests : List String
  avatar : Option String
  deriving Repr, DecidableEq, Inhabited

structure UserRec where
  _id : String
  email : String
  name : String
  profile : Profile
  status : String
  lastLogin : Option String
  createdAt : String
  updatedAt : String
  deriving Repr, DecidableEq, Inhabited

/-- All draws `generate_user` makes from `random` / `fake`, in source order:
the email candidate stream, then name, the three profile coin flips and
their payloads, status, lastLogin, timestamps. -/
structure UserRand where
  fuel : ℕ
  id : String
  emails : ℕ → String
  name : String
  ageCoin : Bool
  ageDraw : ℕ
  countryDraw : ℕ
  interestsCoin : Bool
  interests : List String
  avatarCoin : Bool
  avatar : String
  statusDraw : ℕ
  lastLoginCoin : Bool
  lastLogin : String
  createdAt : String
  updatedAt : String

def countryList : List String :=
  ["Vietnam", "Thailand", "Malaysia", "Singapore", "Indonesia", "Philippines"]

def userStatusList : List String := ["active", "inactive", "suspended"]

/-- `generate_user(email_set)`: draw a fresh email by rejection sampling
against the registry, add it, and build the record.  `none` only when the
model fuel for the (uncapped) Python loop runs out. -/
def generate_user (emailReg : List String) (r : UserRand) :
    Option (UserRec × List String) :=
  match freshLoop emailReg (fun i _ => r.emails i) (r.emails 0) 1 r.fuel with
  | none => none
  | some email =>
      some ({ _id := r.id
              email := email
              name := r.name
              profile :=
                { age := if r.ageCoin then some (randint 13 80 r.ageDraw) else none
                  country := randChoice countryList "Vietnam" r.countryDraw
                  interests := if r.interestsCoin then r.interests else []
                  avatar := if r.avatarCoin then some r.avatar else none }
              status := randChoice userStatusList "active" r.statusDraw
              lastLogin := if r.lastLoginCoin then some r.lastLogin else none
              createdAt := r.createdAt
              updatedAt := r.updatedAt },
            email :: emailReg)

/-- The coordinator pattern `[generate_X(registry) for _ in range(n)]`:
run a registry-threading generator over a list of draw records. -/
def runGen {ρ α : Type} (gen : List String → ρ → Option (α × List String)) :
    List String → List ρ → Option (List α × List String)
  | reg, [] => some ([], reg)
  | reg, r :: rs =>
      match gen reg r with
      | none => none
      | some (a, reg') =>
          match runGen gen reg' rs with
          | none => none
          | some (as, reg'') => some (a :: as, reg'')

/-! ## 2. Categories (`create_slug`, `generate_category`, create.py lines 12-15
and 59-82, plus the level-structured coordinator, lines 232-256) -/

/-- `create_slug(name)`: lowercase, spaces to hyphens, strip everything
outside `[a-z0-9-]` (working over the character list). -/
def create_slug (name : String) : String :=
  let lowered := name.toList.map Char.toLower
  let hyphened := lowered.map (fun c => if c = ' ' then '-' else c)
  String.mk (hyphened.filter (fun c => c.isLower || c.isDigit || c = '-'))

structure SeoBlock where
  metaTitle : String
  metaDescription : String
  keywords : List String
  deriving Repr, DecidableEq

structure CategoryRec where
  _id : String
  name : String
  slug : String
  description : String
  parentId : Option String
  image : String
  sortOrder : ℕ
  featured : Bool
  status : String
  seo : SeoBlock
  createdAt : String
  updatedAt : String
  deriving Repr, DecidableEq

/-- Draws made by `generate_category`, in source order: the two name words,
the slug-suffix stream for the dedupe loop, then the remaining fake fields. -/
structure CatRand where
  fuel : ℕ
  id : String
  name : String
  slugSuffix : ℕ → ℕ
  description : String
  image : String
  sortOrderDraw : ℕ
  featured : Bool
  statusDraw : ℕ
  metaTitle : String
  metaDescription : String
  keywords : List String
  createdAt : String
  updatedAt : String
  parentDraw : ℕ

/-- `generate_category(slug_set, parent_id=None, ...)`: derive the slug from
the name, disambiguate by appending random numeric suffixes while it
collides, register it, and build the record.  `parent_id if parent_id else
None` is Python string truthiness: the empty string also maps to `None`. -/
def generate_category (slugReg : List String) (parent : Option String)
    (r : CatRand) : Option (CategoryRec × List String) :=
  match freshLoop slugReg
      (fun i v => v ++ "-" ++ toString (randint 1000 9999 (r.slugSuffix i)))
      (create_slug r.name) 0 r.fuel with
  | none => none
  | some slug =>
      some ({ _id := r.id
              name := r.name
              slug := slug
              description := r.description
              parentId := Option.filter (fun p => p ≠ "") parent
              image := r.image
              sortOrder := randint 0 100 r.sortOrderDraw
              featured := r.featured
              status := randChoice ["active", "inactive"] "active" r.statusDraw
              seo := { metaTitle := r.metaTitle
                       metaDescription := r.metaDescription
                       keywords := r.keywords }
              createdAt := r.createdAt
              updatedAt := r.updatedAt },
            slug :: slugReg)

/-- One level batch of the category coordinator (create.py line 249): every
record of the batch draws its parent from the fixed list `parentIds`. -/
def catBatchGen (parentIds : List String) (reg : List String) (r : CatRand) :
    Option (CategoryRec × List String) :=
  generate_category reg (some (randChoice parentIds "" r.parentDraw)) r

/-- The parent pool of one level (create.py line 246): at level 1 the root
categories (those with null parentId), at deeper levels every category so
far. -/
def levelParentPool (cats : List CategoryRec) (level : ℕ) : List String :=
  if level = 1 then
    ((cats.filter (fun c => c.parentId = none)).map (fun c => c._id))
  else cats.map (fun c => c._id)

/-- The level loop of the coordinator (create.py lines 245-250): each level
draws parents from the pool computed before the level's batch is generated;
an empty pool breaks out of the loop.  The number of records per level
(`level_counts`, a function of draws that the claims do not depend on) is
abstracted as the length of that level's draw list. -/
def catLevels (cats : List CategoryRec) (reg : List String) (level : ℕ) :
    List (List CatRand) → Option (List CategoryRec × List String)
  | [] => some (cats, reg)
  | rs :: rest =>
      let parentIds := levelParentPool cats level
      if parentIds = [] then some (cats, reg)
      else
        match runGen (catBatchGen parentIds) reg rs with
        | none => none
        | some (batch, reg') => catLevels (cats ++ batch) reg' (level + 1) rest

/-- The full category stage (create.py lines 232-256): root categories with
`parentId = None`, then the levelled batches, then the root-level top-up
when the total fell short. -/
def generateCategories (reg : List String) (rootRs : List CatRand)
    (levelRs : List (List CatRand)) (topupRs : List CatRand) :
    Option (List CategoryRec × List String) :=
  match runGen (fun reg r => generate_category reg none r) reg rootRs with
  | none => none
  | some (roots, reg1) =>
      match catLevels roots reg1 1 levelRs with
      | none => none
      | some (cats, reg2) =>
          match runGen (fun reg r => generate_category reg none r) reg2 topupRs with
          | none => none
          | some (extra, reg3) => some (cats ++ extra, reg3)

/-! ## 3. Products (`generate_sku`, `generate_product`, create.py lines
22-23 and 85-118) -/

structure Inventory where
  quantity : ℕ
  reserved : ℕ
  lowStockThreshold : ℕ
  deriving Repr, DecidableEq

structure Specs where
  weight : String
  color : String
  brand : String
  deriving Repr, DecidableEq

structure Ratings where
  average : ℚ
  count : ℕ
  deriving Repr, DecidableEq

structure ProductRec where
  _id : String
  sku : String
  name : String
  description : String
  category : String
  subcategory : Option String
  price : ℚ
  currency : String
  inventory : Inventory
  images : List String
  tags : List String
  specifications : Specs
  ratings : Ratings
  status : String
  createdAt : String
  updatedAt : String
  deriving Repr, DecidableEq

structure ProdRand where
  fuel : ℕ
  id : String
  skus : ℕ → String
  name : String
  description : String
  categoryDraw : ℕ
  subcatCoin : Bool
  subcategory : String
  priceRaw : ℚ
  currencyDraw : ℕ
  quantityDraw : ℕ
  reservedDraw : ℕ
  thresholdDraw : ℕ
  images : List String
  tags : List String
  weight : String
  colorDraw : ℕ
  brand : String
  ratingCoin : Bool
  ratingRaw : ℚ
  ratingCountDraw : ℕ
  statusDraw : ℕ
  createdAt : String
  updatedAt : String

def productCategoryList : List String :=
  ["electronics", "clothing", "books", "home", "sports", "beauty", "toys",
   "automotive"]

def currencyList : List String := ["USD", "VND", "EUR", "GBP"]

/-- `round(x, 1)` on exact rationals, for the ratings average. -/
def round1 (q : ℚ) : ℚ := (⌊q * 10 + 1/2⌋ : ℚ) / 10

/-- `generate_product(sku_set)`: reject SKU candidates already registered,
register the fresh one, build the record.  `price = round(uniform(10,500),2)`
with the uniform draw supplied as `priceRaw`. -/
def generate_product (skuReg : List String) (r : ProdRand) :
    Option (ProductRec × List String) :=
  match freshLoop skuReg (fun i _ => r.skus i) (r.skus 0) 1 r.fuel with
  | none => none
  | some sku =>
      some ({ _id := r.id
              sku := sku
              name := r.name
              description := r.description
              category := randChoice productCategoryList "electronics" r.categoryDraw
              subcategory := if r.subcatCoin then some r.subcategory else none
              price := round2 r.priceRaw
              currency := randChoice currencyList "USD" r.currencyDraw
              inventory := { quantity := randint 0 1000 r.quantityDraw
                             reserved := randint 0 50 r.reservedDraw
                             lowStockThreshold := randint 5 20 r.thresholdDraw }
              images := r.images
              tags := r.tags
              specifications := { weight := r.weight
                                  color := randChoice
                                    ["Red", "Blue", "Green", "Black", "White"]
                                    "Red" r.colorDraw
                                  brand := r.brand }
              ratings := { average := if r.ratingCoin then round1 r.ratingRaw else 0
                           count := randint 0 100 r.ratingCountDraw }
              status := randChoice ["active", "inactive", "discontinued", "draft"]
                "active" r.statusDraw
              createdAt := r.createdAt
              updatedAt := r.updatedAt },
            sku :: skuReg)

/-! ## 4. Product-category links (`generate_product_category`, create.py
lines 121-129, and the coordinator loop, lines 264-279) -/

structure PCRec where
  _id : String
  productId : String
  categoryId : String
  isPrimary : Bool
  sortOrder : ℕ
  createdAt : String
  deriving Repr, DecidableEq

/-- Draws for one candidate link: the generator's own fields (including its
internal `isPrimary = random.choice([True, False])`) plus the coordinator's
separate coin at create.py line 275. -/
structure PCRand where
  id : String
  primaryCoin : Bool
  sortOrderDraw : ℕ
  createdAt : String
  coordCoin : Bool

/-- `generate_product_category(product_id, category_id)`: builds the link
record with a random `isPrimary`. -/
def generate_product_category (productId categoryId : String) (r : PCRand) :
    PCRec :=
  { _id := r.id
    productId := productId
    categoryId := categoryId
    isPrimary := r.primaryCoin
    sortOrder := randint 0 100 r.sortOrderDraw
    createdAt := r.createdAt }

/-- The coordinator's inner loop over one product's selected categories
(create.py lines 271-278): skip already-linked pairs; otherwise build the
link, and while no link of this product was force-marked primary yet, flip
the coordinator coin and on heads overwrite `isPrimary` with `True`. -/
def linkLoop (productId : String) :
    List (String × PCRand) → List (String × String) → Bool →
    List PCRec × List (String × String)
  | [], pairs, _ => ([], pairs)
  | (categoryId, r) :: rest, pairs, isPrimarySet =>
      if (productId, categoryId) ∈ pairs then
        linkLoop productId rest pairs isPrimarySet
      else
        let pc := generate_product_category productId categoryId r
        let pairs' := (productId, categoryId) :: pairs
        if ¬ isPrimarySet ∧ r.coordCoin then
          let res := linkLoop productId rest pairs' true
          ({ pc with isPrimary := true } :: res.1, res.2)
        else
          let res := linkLoop productId rest pairs' isPrimarySet
          (pc :: res.1, res.2)

/-- One product's iteration of the coordinator loop (create.py lines
267-278): sample 1-3 distinct category ids and run the link loop with the
primary flag initially unset. -/
def linkProduct (categoryIds : List String) (productId : String)
    (numDraw : ℕ) (sampleDraws : ℕ → ℕ) (rs : ℕ → PCRand)
    (pairs : List (String × String)) : List PCRec × List (String × String) :=
  let numCategories := randint 1 3 numDraw
  let selected := randSample categoryIds (min numCategories categoryIds.length)
    sampleDraws 0
  linkLoop productId ((selected.enum.map (fun ci => (ci.2, rs ci.1)))) pairs
    false

/-! ## 5. Orders (`generate_order_number`, `generate_address`,
`generate_order_item`, `generate_order`, create.py lines 17-19, 26-34,
132-189) -/

structure AddressRec where
  fullName : String
  address : String
  city : String
  state : String
  zipCode : String
  country : String
  deriving Repr, DecidableEq, Inhabited

structure AddrRand where
  fullName : String
  address : String
  city : String
  state : String
  zipCode : String
  countryDraw : ℕ

/-- `generate_address()`: all fields from the fake source, country from the
fixed six-country list. -/
def generate_address (r : AddrRand) : AddressRec :=
  { fullName := r.fullName
    address := r.address
    city := r.city
    state := r.state
    zipCode := r.zipCode
    country := randChoice countryList "Vietnam" r.countryDraw }

structure OrderItem where
  productId : String
  sku : String
  name : String
  price : ℚ
  quantity : ℕ
  subtotal : ℚ
  deriving Repr, DecidableEq, Inhabited

structure Payment where
  method : String
  status : String
  transactionId : String
  amount : ℚ
  deriving Repr, DecidableEq, Inhabited

/-- An order record.  Dates are integer day counts; `shippedDate` and
`deliveredDate` are `orderDate` plus the drawn `timedelta(days=...)` when
the status conditions hold, and `None` otherwise. -/
structure OrderRec where
  _id : String
  orderNumber : String
  customerId : String
  items : List OrderItem
  shippingAddress : AddressRec
  billingAddress : AddressRec
  payment : Payment
  subtotal : ℚ
  tax : ℚ
  shipping : ℚ
  discount : ℚ
  totalAmount : ℚ
  currency : String
  status : String
  orderDate : ℤ
  shippedDate : Option ℤ
  deliveredDate : Option ℤ
  notes : String
  createdAt : ℤ
  updatedAt : ℤ
  deriving Repr, DecidableEq, Inhabited

structure OrderRand where
  fuel : ℕ
  id : String
  orderNumbers : ℕ → String
  numItemsDraw : ℕ
  sampleDraws : ℕ → ℕ
  qtyDraws : ℕ → ℕ
  taxRate : ℚ
  shippingRaw : ℚ
  discountRate : ℚ
  orderDate : ℤ
  statusDraw : ℕ
  custDraw : ℕ
  shippingAddr : AddrRand
  billingAddr : AddrRand
  methodDraw : ℕ
  payStatusDraw : ℕ
  txnDraw : ℕ
  currencyDraw : ℕ
  shippedOffDraw : ℕ
  deliveredOffDraw : ℕ
  notesCoin : Bool
  notes : String

def orderStatusList : List String :=
  ["pending", "confirmed", "processing", "shipped", "delivered", "cancelled",
   "refunded"]

/-- `generate_order_item(product)`: quantity 1-5; the price falls back to a
fresh uniform draw only when the product lacks a `price` key, which products
built by `generate_product` never do, so the price is the product's price. -/
def generate_order_item (p : ProductRec) (qtyDraw : ℕ) : OrderItem :=
  let quantity := randint 1 5 qtyDraw
  let price := p.price
  { productId := p._id
    sku := p.sku
    name := p.name
    price := price
    quantity := quantity
    subtotal := round2 (price * quantity) }

/-- The list comprehension `[generate_order_item(p) for p in
selected_products]`, with each item's quantity draw taken from the stream. -/
def mkItems (ps : List ProductRec) (qtyDraws : ℕ → ℕ) : ℕ → List OrderItem
  | _ => ps.enum.map (fun pi => generate_order_item pi.2 (qtyDraws pi.1))

/-- `generate_order(customer_ids, products, order_number_set)`: fresh order
number by rejection sampling; 1-5 distinct products sampled without
replacement; money fields per the formulas at create.py lines 154-158;
shipped/delivered dates gated on status (lines 184-185). -/
def generate_order (customerIds : List String) (products : List ProductRec)
    (onumReg : List String) (r : OrderRand) :
    Option (OrderRec × List String) :=
  match freshLoop onumReg (fun i _ => r.orderNumbers i) (r.orderNumbers 0) 1
      r.fuel with
  | none => none
  | some orderNumber =>
      let numItems := randint 1 5 r.numItemsDraw
      let selectedProducts :=
        randSample products (min numItems products.length) r.sampleDraws 0
      let items := mkItems selectedProducts r.qtyDraws 0
      let subtotal := (items.map (fun it => it.subtotal)).sum
      let tax := round2 (subtotal * r.taxRate)
      let shipping := round2 r.shippingRaw
      let discount := round2 (subtotal * r.discountRate)
      let totalAmount := round2 (subtotal + tax + shipping - discount)
      let orderDate := r.orderDate
      let status := randChoice orderStatusList "pending" r.statusDraw
      some ({ _id := r.id
              orderNumber := orderNumber
              customerId := randChoice customerIds "" r.custDraw
              items := items
              shippingAddress := generate_address r.shippingAddr
              billingAddress := generate_address r.billingAddr
              payment :=
                { method := randChoice
                    ["credit_card", "debit_card", "paypal", "bank_transfer",
                     "cash_on_delivery"] "credit_card" r.methodDraw
                  status := randChoice
                    ["pending", "completed", "failed", "refunded"] "pending"
                    r.payStatusDraw
                  transactionId := "TXN-" ++ toString (randint 1000 9999 r.txnDraw)
                  amount := totalAmount }
              subtotal := subtotal
              tax := tax
              shipping := shipping
              discount := discount
              totalAmount := totalAmount
              currency := randChoice currencyList "USD" r.currencyDraw
              status := status
              orderDate := orderDate
              shippedDate :=
                if status = "shipped" ∨ status = "delivered" then
                  some (orderDate + (randint 1 5 r.shippedOffDraw : ℤ))
                else none
              deliveredDate :=
                if status = "delivered" then
                  some (orderDate + (randint 5 10 r.deliveredOffDraw : ℤ))
                else none
              notes := if r.notesCoin then r.notes else ""
              createdAt := orderDate
              updatedAt := orderDate },
            orderNumber :: onumReg)

/-! ## 6. Product reviews (`generate_product_review`, create.py lines
192-213, the purchase index, lines 287-293, and the sampling loop, lines
295-302) -/

structure Helpful where
  yes : ℕ
  no : ℕ
  deriving Repr, DecidableEq

structure ReviewRec where
  _id : String
  productId : String
  userId : String
  rating : ℕ
  title : String
  content : String
  verified : Bool
  helpful : Helpful
  status : String
  images : List String
  createdAt : String
  updatedAt : String
  deriving Repr, DecidableEq

structure ReviewRand where
  id : String
  ratingDraw : ℕ
  title : String
  content : String
  yesDraw : ℕ
  noDraw : ℕ
  statusDraw : ℕ
  images : List String
  createdAt : String
  updatedAt : String

/-- One item's update of the purchase index (create.py lines 291-293):
append the item's productId to the customer's entry (missing entries read
as the empty list, matching `order_products.get(user_id, [])`). -/
def addItem (customerId productId : String) (d : String → List String) :
    String → List String :=
  fun k => if k = customerId then d k ++ [productId] else d k

/-- One order's contribution to the purchase index. -/
def addOrder (d : String → List String) (o : OrderRec) : String → List String :=
  o.items.foldl (fun d it => addItem o.customerId it.productId d) d

/-- The derived index `order_products` (create.py lines 287-293): userId to
the list of productIds over all of that user's orders' items. -/
def buildOrderProducts (orders : List OrderRec) : String → List String :=
  orders.foldl addOrder (fun _ => [])

/-- `generate_product_review(product_id, user_id, order_products,
product_user_pairs)`: a duplicate (productId, userId) pair is a no-op that
returns `None` and leaves the registry alone; a fresh pair is registered and
`verified` is the membership test against the purchase index. -/
def generate_product_review (productId userId : String)
    (orderProducts : String → List String)
    (pairs : List (String × String)) (r : ReviewRand) :
    Option ReviewRec × List (String × String) :=
  if (productId, userId) ∈ pairs then (none, pairs)
  else
    let pairs' := (productId, userId) :: pairs
    let verified := productId ∈ orderProducts userId
    (some { _id := r.id
            productId := productId
            userId := userId
            rating := randint 1 5 r.ratingDraw
            title := r.title
            content := r.content
            verified := verified
            helpful := { yes := randint 0 50 r.yesDraw
                         no := randint 0 20 r.noDraw }
            status := randChoice ["pending", "approved", "rejected", "spam"]
              "pending" r.statusDraw
            images := r.images
            createdAt := r.createdAt
            updatedAt := r.updatedAt },
      pairs')

/-- The coordinator's review sampling loop (create.py lines 295-302):
`while len(product_reviews) < target:` draw a user and a product, call the
review generator, keep the record when it is not the duplicate no-op.  The
Python loop has no iteration cap; `fuel` bounds the model only, and `none`
marks the model running dry, not any error the code raises. -/
def reviewLoop (userIds productIds : List String)
    (orderProducts : String → List String) (target : ℕ)
    (draws : ℕ → ℕ × ℕ × ReviewRand) :
    List ReviewRec → List (String × String) → ℕ → ℕ →
    Option (List ReviewRec)
  | acc, _, _, 0 => if target ≤ acc.length then some acc.reverse else none
  | acc, pairs, i, fuel + 1 =>
      if target ≤ acc.length then some acc.reverse
      else
        let d := draws i
        let userId := randChoice userIds "" d.1
        let productId := randChoice productIds "" d.2.1
        match generate_product_review productId userId orderProducts pairs
            d.2.2 with
        | (none, pairs') =>
            reviewLoop userIds productIds orderProducts target draws acc
              pairs' (i + 1) fuel
        | (some rev, pairs') =>
            reviewLoop userIds productIds orderProducts target draws
              (rev :: acc) pairs' (i + 1) fuel

/-! ## 7. Derived notions the verification states its properties with -/

/-- The registry contract every uniqueness-looped generator satisfies: a
successful call returns a key that was not registered and the registry
extended by exactly that key. -/
def GenSpec {ρ α : Type} (gen : List String → ρ → Option (α × List String))
    (key : α → String) : Prop :=
  ∀ reg r a reg', gen reg r = some (a, reg') → key a ∉ reg ∧ reg' = key a :: reg

/-- `ParentsOk seen cats`: walking `cats` left to right, every non-null
`parentId` is an id already seen (the ids of strictly earlier categories,
plus the initially seen ones). -/
inductive ParentsOk : List String → List CategoryRec → Prop
  | nil (seen : List String) : ParentsOk seen []
  | cons (seen : List String) (c : CategoryRec) (tl : List CategoryRec)
      (hp : ∀ p, c.parentId = some p → p ∈ seen)
      (ht : ParentsOk (c._id :: seen) tl) : ParentsOk seen (c :: tl)

/-- The spec sentence for delivered orders, as stated: both dates present and
`deliveredDate > shippedDate > orderDate` strictly. -/
def deliveredStrict (o : OrderRec) : Prop :=
  o.status = "delivered" →
    ∃ s d, o.shippedDate = some s ∧ o.deliveredDate = some d ∧
      o.orderDate < s ∧ s < d

/-! ## 8. Concrete inputs used by the witnesses and counterexamples -/

def userRandW : UserRand :=
  { fuel := 2, id := "u1", emails := fun i => "e" ++ toString i, name := "n",
    ageCoin := true, ageDraw := 0, countryDraw := 0, interestsCoin := false,
    interests := ["x"], avatarCoin := false, avatar := "av", statusDraw := 0,
    lastLoginCoin := false, lastLogin := "", createdAt := "t0",
    updatedAt := "t1" }

def userRandW2 : UserRand := { userRandW with id := "u2" }

/-- The profile coin flips are the only inputs the claim says govern
presence; this family fixes every other draw and varies exactly those. -/
def userRandC8 (a i v : Bool) : UserRand :=
  { userRandW with ageCoin := a, interestsCoin := i, avatarCoin := v }

def coinCombos : List (Bool × Bool × Bool) :=
  [(false, false, false), (false, false, true), (false, true, false),
   (false, true, true), (true, false, false), (true, false, true),
   (true, true, false), (true, true, true)]

def catRandW (id nm : String) : CatRand :=
  { fuel := 2, id := id, name := nm, slugSuffix := fun _ => 0,
    description := "", image := "", sortOrderDraw := 0, featured := false,
    statusDraw := 0, metaTitle := "", metaDescription := "", keywords := [],
    createdAt := "", updatedAt := "", parentDraw := 0 }

def catsRunW : Option (List CategoryRec × List String) :=
  generateCategories [] [catRandW "c1" "Aa Bb"] [[catRandW "c2" "Cc Dd"]]
    [catRandW "c3" "Ee Ff"]

def prodRandW (id sku : String) : ProdRand :=
  { fuel := 2, id := id, skus := fun i => sku ++ toString i, name := "P",
    description := "", categoryDraw := 0, subcatCoin := false,
    subcategory := "", priceRaw := 1999/100, currencyDraw := 0,
    quantityDraw := 0, reservedDraw := 0, thresholdDraw := 0, images := [],
    tags := [], weight := "", colorDraw := 0, brand := "",
    ratingCoin := false, ratingRaw := 0, ratingCountDraw := 0,
    statusDraw := 0, createdAt := "", updatedAt := "" }

def productW : ProductRec :=
  { _id := "p1", sku := "SKU-1", name := "P", description := "",
    category := "books", subcategory := none, price := 1999/100,
    currency := "USD",
    inventory := { quantity := 1, reserved := 0, lowStockThreshold := 5 },
    images := [], tags := [],
    specifications := { weight := "", color := "Red", brand := "" },
    ratings := { average := 0, count := 0 }, status := "active",
    createdAt := "", updatedAt := "" }

def addrRandW : AddrRand :=
  { fullName := "n", address := "a", city := "c", state := "s",
    zipCode := "z", countryDraw := 0 }

/-- `statusDraw 4` selects "delivered"; `shippedOffDraw 4` makes the shipped
offset `1 + 4 % 5 = 5` days and `deliveredOffDraw 0` the delivered offset
`5 + 0 % 6 = 5` days, so both dates land on day 5. -/
def orderRandW : OrderRand :=
  { fuel := 2, id := "o1", orderNumbers := fun i => "ORD-A" ++ toString i,
    numItemsDraw := 0, sampleDraws := fun _ => 0, qtyDraws := fun _ => 0,
    taxRate := 0, shippingRaw := 0, discountRate := 0, orderDate := 0,
    statusDraw := 4, custDraw := 0, shippingAddr := addrRandW,
    billingAddr := addrRandW, methodDraw := 0, payStatusDraw := 0,
    txnDraw := 0, currencyDraw := 0, shippedOffDraw := 4,
    deliveredOffDraw := 0, notesCoin := false, notes := "" }

def orderRandW2 : OrderRand :=
  { orderRandW with id := "o2", orderNumbers := fun i => "ORD-B" ++ toString i }

def usersRunW : Option (List UserRec × List String) :=
  runGen generate_user [] [userRandW, userRandW2]

def prodsRunW : Option (List ProductRec × List String) :=
  runGen generate_product [] [prodRandW "p1" "SKU-A", prodRandW "p2" "SKU-B"]

def ordersRunW : Option (List OrderRec × List String) :=
  runGen (generate_order ["u1"] [productW]) [] [orderRandW, orderRandW2]

def orderResW : Option (OrderRec × List String) :=
  generate_order ["u1"] [productW] [] orderRandW

def reviewRandW : ReviewRand :=
  { id := "r1", ratingDraw := 0, title := "", content := "", yesDraw := 0,
    noDraw := 0, statusDraw := 0, images := [], createdAt := "",
    updatedAt := "" }

def reviewsRunW : Option (List ReviewRec) :=
  reviewLoop ["u1"] ["p1"]
    (buildOrderProducts [((orderResW.getD default).1)]) 1
    (fun _ => (0, 0, reviewRandW)) [] [] 0 2

/-- Generator coin heads (`isPrimary = True` inside
`generate_product_category`), coordinator coin tails (no overwrite). -/
def pcRandW : PCRand :=
  { id := "pc", primaryCoin := true, sortOrderDraw := 0, createdAt := "",
    coordCoin := false }

/-- What the spec calls a verified review, relative to a list of orders:
the flag holds exactly when some order of that user contains the product. -/
def VerifiedWrt (orders : List OrderRec) (rev : ReviewRec) : Prop :=
  rev.verified = true ↔
    ∃ o ∈ orders, o.customerId = rev.userId ∧
      ∃ it ∈ o.items, it.productId = rev.productId

def userResW : Option (UserRec × List String) := generate_user [] userRandW

/-! ## 9. Registry and structure lemmas -/

theorem freshLoop_not_mem (reg : List String) (step : ℕ → String → String) :
    ∀ v i fuel v', freshLoop reg step v i fuel = some v' → v' ∉ reg := by
  intro v i fuel
  induction fuel generalizing v i with
  | zero => intro v' h; simp [freshLoop] at h
  | succ n ih =>
      intro v' h
      by_cases hv : v ∈ reg
      · simp [freshLoop, hv] at h
        exact ih _ _ _ h
      · simp [freshLoop, hv] at h
        exact h ▸ hv

theorem generate_user_spec : GenSpec generate_user (fun u => u.email) := by
  intro reg r a reg' h
  cases hfl : freshLoop reg (fun i _ => r.emails i) (r.emails 0) 1 r.fuel with
  | none => rw [generate_user, hfl] at h; cases h
  | some email =>
      rw [generate_user, hfl] at h
      cases h
      exact ⟨freshLoop_not_mem _ _ _ _ _ _ hfl, rfl⟩

theorem generate_category_spec (pf : CatRand → Option String) :
    GenSpec (fun reg r => generate_category reg (pf r) r) (fun c => c.slug) := by
  intro reg r a reg' h0
  have h : generate_category reg (pf r) r = some (a, reg') := h0
  cases hfl : freshLoop reg
      (fun i v => v ++ "-" ++ toString (randint 1000 9999 (r.slugSuffix i)))
      (create_slug r.name) 0 r.fuel with
  | none => rw [generate_category, hfl] at h; cases h
  | some slug =>
      rw [generate_category, hfl] at h
      cases h
      exact ⟨freshLoop_not_mem _ _ _ _ _ _ hfl, rfl⟩

theorem generate_product_spec : GenSpec generate_product (fun p => p.sku) := by
  intro reg r a reg' h
  cases hfl : freshLoop reg (fun i _ => r.skus i) (r.skus 0) 1 r.fuel with
  | none => rw [generate_product, hfl] at h; cases h
  | some sku =>
      rw [generate_product, hfl] at h
      cases h
      exact ⟨freshLoop_not_mem _ _ _ _ _ _ hfl, rfl⟩

theorem generate_order_spec (customerIds : List String)
    (products : List ProductRec) :
    GenSpec (generate_order customerIds products) (fun o => o.orderNumber) := by
  intro reg r a reg' h
  cases hfl : freshLoop reg (fun i _ => r.orderNumbers i) (r.orderNumbers 0) 1
      r.fuel with
  | none => rw [generate_order, hfl] at h; cases h
  | some onum =>
      rw [generate_order, hfl] at h
      cases h
      exact ⟨freshLoop_not_mem _ _ _ _ _ _ hfl, rfl⟩

theorem runGen_spec {ρ α : Type} {gen : List String → ρ → Option (α × List String)}
    {key : α → String} (hg : GenSpec gen key) :
    ∀ rs reg as reg', runGen gen reg rs = some (as, reg') →
      reg' = (as.map key).reverse ++ reg ∧
      (as.map key).Pairwise (· ≠ ·) ∧ ∀ k ∈ as.map key, k ∉ reg := by
  intro rs
  induction rs with
  | nil =>
      intro reg as reg' h
      rw [runGen] at h
      cases h
      simp
  | cons r rs ih =>
      intro reg as reg' h
      rw [runGen] at h
      split at h
      · cases h
      · rename_i a reg1 h1
        split at h
        · cases h
        · rename_i as' reg2 h2
          cases h
          obtain ⟨hka, hreg1⟩ := hg reg r a reg1 h1
          obtain ⟨hreg'', hpw, hnotin⟩ := ih _ _ _ h2
          subst hreg1
          refine ⟨?_, ?_, ?_⟩
          · rw [hreg'']
            simp
          · refine List.Pairwise.cons ?_ hpw
            intro b hb
            have := hnotin b hb
            intro hab
            exact this (hab ▸ List.mem_cons_self _ _)
          · intro k hk
            rcases List.mem_cons.mp hk with hk | hk
            · exact hk ▸ hka
            · intro hkreg
              exact hnotin k hk (List.mem_cons_of_mem _ hkreg)

theorem runGen_forall {ρ α : Type}
    {gen : List String → ρ → Option (α × List String)} (Q : α → Prop)
    (hQ : ∀ reg r a reg', gen reg r = some (a, reg') → Q a) :
    ∀ rs reg as reg', runGen gen reg rs = some (as, reg') → ∀ a ∈ as, Q a := by
  intro rs
  induction rs with
  | nil =>
      intro reg as reg' h
      rw [runGen] at h
      cases h
      simp
  | cons r rs ih =>
      intro reg as reg' h
      rw [runGen] at h
      split at h
      · cases h
      · rename_i a reg1 h1
        split at h
        · cases h
        · rename_i as' reg2 h2
          cases h
          intro b hb
          rcases List.mem_cons.mp hb with hb | hb
          · exact hb ▸ hQ reg r a reg1 h1
          · exact ih _ _ _ h2 b hb

theorem randChoice_mem {α : Type} (l : List α) (d : α) (n : ℕ) (hl : l ≠ []) :
    randChoice l d n ∈ l := by
  have hlen : 0 < l.length := List.length_pos.mpr hl
  have hlt : n % l.length < l.length := Nat.mod_lt _ hlen
  rw [randChoice, List.getD_eq_getElem l d hlt]
  exact List.getElem_mem hlt

theorem parentsOk_mono : ∀ (l : List CategoryRec) (seen seen' : List String),
    (∀ x ∈ seen, x ∈ seen') → ParentsOk seen l → ParentsOk seen' l := by
  intro l
  induction l with
  | nil => intro seen seen' _ _; exact ParentsOk.nil seen'
  | cons c tl ih =>
      intro seen seen' hs h
      cases h with
      | cons _ _ _ hp ht =>
          refine ParentsOk.cons _ _ _ (fun p hpc => hs _ (hp p hpc)) ?_
          refine ih _ _ ?_ ht
          intro x hx
          rcases List.mem_cons.mp hx with hx | hx
          · exact hx ▸ List.mem_cons_self _ _
          · exact List.mem_cons_of_mem _ (hs x hx)

theorem parentsOk_of_forall : ∀ (l : List CategoryRec) (seen S : List String),
    (∀ c ∈ l, ∀ p, c.parentId = some p → p ∈ S) →
    (∀ x ∈ S, x ∈ seen) → ParentsOk seen l := by
  intro l
  induction l with
  | nil => intro seen S _ _; exact ParentsOk.nil seen
  | cons c tl ih =>
      intro seen S hall hsub
      refine ParentsOk.cons _ _ _
        (fun p hp => hsub _ (hall c (List.mem_cons_self _ _) p hp)) ?_
      exact ih _ S (fun c' hc' => hall c' (List.mem_cons_of_mem _ hc'))
        (fun x hx => List.mem_cons_of_mem _ (hsub x hx))

theorem parentsOk_append : ∀ (l1 l2 : List CategoryRec) (seen : List String),
    ParentsOk seen l1 →
    ParentsOk ((l1.map (fun c => c._id)).reverse ++ seen) l2 →
    ParentsOk seen (l1 ++ l2) := by
  intro l1
  induction l1 with
  | nil => intro l2 seen _ h2; simpa using h2
  | cons c tl ih =>
      intro l2 seen h1 h2
      cases h1 with
      | cons _ _ _ hp ht =>
          refine ParentsOk.cons _ _ _ hp ?_
          refine ih l2 _ ht ?_
          simpa [List.append_assoc] using h2

theorem parentsOk_no_self : ∀ (l : List CategoryRec) (seen : List String),
    ParentsOk seen l → (∀ c ∈ l, c._id ∉ seen) →
    (l.map (fun c => c._id)).Pairwise (· ≠ ·) →
    ∀ c ∈ l, c.parentId ≠ some c._id := by
  intro l
  induction l with
  | nil => intro seen _ _ _ c hc; cases hc
  | cons c tl ih =>
      intro seen h hnotin hpw c' hc'
      rw [List.map_cons] at hpw
      have hpc := List.pairwise_cons.mp hpw
      cases h with
      | cons _ _ _ hp ht =>
          rcases List.mem_cons.mp hc' with hc' | hc'
          · subst hc'
            intro hself
            exact hnotin c' (List.mem_cons_self _ _) (hp _ hself)
          · refine ih (c._id :: seen) ht ?_ hpc.2 c' hc'
            intro c2 hc2 hmem
            rcases List.mem_cons.mp hmem with heq | hmem
            · exact hpc.1 c2._id (List.mem_map_of_mem _ hc2) heq.symm
            · exact hnotin c2 (List.mem_cons_of_mem _ hc2) hmem

theorem generate_category_parent (parent : Option String)
    (reg : List String) (r : CatRand) (c : CategoryRec) (reg' : List String)
    (h : generate_category reg parent r = some (c, reg')) :
    c.parentId = Option.filter (fun p => p ≠ "") parent := by
  cases hfl : freshLoop reg
      (fun i v => v ++ "-" ++ toString (randint 1000 9999 (r.slugSuffix i)))
      (create_slug r.name) 0 r.fuel with
  | none => rw [generate_category, hfl] at h; cases h
  | some slug => rw [generate_category, hfl] at h; cases h; rfl

theorem catBatchGen_parent (parentIds : List String) (hne : parentIds ≠ [])
    (reg : List String) (r : CatRand) (c : CategoryRec) (reg' : List String)
    (h : catBatchGen parentIds reg r = some (c, reg')) :
    ∀ p, c.parentId = some p → p ∈ parentIds := by
  intro p hp
  have hpar := generate_category_parent _ _ _ _ _ h
  rw [hpar] at hp
  by_cases hx : randChoice parentIds "" r.parentDraw = ""
  · simp [Option.filter, hx] at hp
  · simp [Option.filter, hx] at hp
    exact hp ▸ randChoice_mem _ _ _ hne

theorem catBatchGen_genspec (parentIds : List String) :
    GenSpec (catBatchGen parentIds) (fun c => c.slug) := by
  intro reg r a reg' h
  exact generate_category_spec
    (fun r => some (randChoice parentIds "" r.parentDraw)) reg r a reg' h

theorem levelParentPool_subset (cats : List CategoryRec) (level : ℕ) :
    ∀ x ∈ levelParentPool cats level, x ∈ cats.map (fun c => c._id) := by
  intro x hx
  rw [levelParentPool] at hx
  split at hx
  · exact List.map_subset _ (List.filter_sublist _).subset hx
  · exact hx

theorem catLevels_parentsOk :
    ∀ (levelRs : List (List CatRand)) (cats : List CategoryRec)
      (reg : List String) (level : ℕ) (cats' : List CategoryRec)
      (reg' : List String),
    catLevels cats reg level levelRs = some (cats', reg') →
    ParentsOk [] cats → ParentsOk [] cats' := by
  intro levelRs
  induction levelRs with
  | nil =>
      intro cats reg level cats' reg' h hp
      rw [catLevels] at h
      cases h
      exact hp
  | cons rs rest ih =>
      intro cats reg level cats' reg' h hp
      rw [catLevels] at h
      split at h
      · cases h
        exact hp
      · rename_i hne
        split at h
        · cases h
        · rename_i batch reg1 hrun
          refine ih _ _ _ _ _ h ?_
          refine parentsOk_append _ _ _ hp ?_
          have hbatch := runGen_forall
            (fun c => ∀ p, c.parentId = some p → p ∈ levelParentPool cats level)
            (fun reg r a reg' hgen =>
              catBatchGen_parent (levelParentPool cats level) hne reg r a reg' hgen)
            rs reg batch reg1 hrun
          refine parentsOk_of_forall _ _ (cats.map (fun c => c._id)) ?_ ?_
          · intro c hc p hpar
            exact levelParentPool_subset cats level p (hbatch c hc p hpar)
          · intro x hx
            rw [List.mem_append, List.mem_reverse]
            exact Or.inl hx

theorem catLevels_slugs :
    ∀ (levelRs : List (List CatRand)) (cats : List CategoryRec)
      (reg : List String) (level : ℕ) (cats' : List CategoryRec)
      (reg' : List String),
    catLevels cats reg level levelRs = some (cats', reg') →
    (cats.map (fun c => c.slug)).Pairwise (· ≠ ·) →
    (∀ s ∈ cats.map (fun c => c.slug), s ∈ reg) →
    ((cats'.map (fun c => c.slug)).Pairwise (· ≠ ·) ∧
      (∀ s ∈ cats'.map (fun c => c.slug), s ∈ reg') ∧
      ∀ s ∈ reg, s ∈ reg') := by
  intro levelRs
  induction levelRs with
  | nil =>
      intro cats reg level cats' reg' h hpw hmem
      rw [catLevels] at h
      cases h
      exact ⟨hpw, hmem, fun s hs => hs⟩
  | cons rs rest ih =>
      intro cats reg level cats' reg' h hpw hmem
      rw [catLevels] at h
      split at h
      · cases h
        exact ⟨hpw, hmem, fun s hs => hs⟩
      · rename_i hne
        split at h
        · cases h
        · rename_i batch reg1 hrun
          obtain ⟨hreg1, hbpw, hbnot⟩ :=
            runGen_spec (catBatchGen_genspec _) rs reg batch reg1 hrun
          obtain ⟨hpw', hmem', hsub⟩ := ih _ _ _ _ _ h
            (by rw [List.map_append, List.pairwise_append]
                refine ⟨hpw, hbpw, ?_⟩
                intro a ha b hb hab
                exact hbnot b hb (hab ▸ hmem a ha))
            (by intro s hs
                rw [List.map_append, List.mem_append] at hs
                rw [hreg1]
                rcases hs with hs | hs
                · exact List.mem_append_right _ (hmem s hs)
                · exact List.mem_append_left _ (List.mem_reverse.mpr hs))
          refine ⟨hpw', hmem', ?_⟩
          intro s hs
          apply hsub
          rw [hreg1]
          exact List.mem_append_right _ hs

theorem generate_category_root_parent (reg : List String) (r : CatRand)
    (c : CategoryRec) (reg' : List String)
    (h : generate_category reg none r = some (c, reg')) : c.parentId = none := by
  have hpar := generate_category_parent none reg r c reg' h
  simpa [Option.filter] using hpar

theorem generateCategories_parentsOk (reg : List String) (rootRs : List CatRand)
    (levelRs : List (List CatRand)) (topupRs : List CatRand)
    (cats : List CategoryRec) (reg' : List String)
    (h : generateCategories reg rootRs levelRs topupRs = some (cats, reg')) :
    ParentsOk [] cats := by
  rw [generateCategories] at h
  split at h
  · cases h
  · rename_i roots reg1 hroots
    split at h
    · cases h
    · rename_i cats1 reg2 hlev
      split at h
      · cases h
      · rename_i extra reg3 htop
        cases h
        have hrootsOk : ParentsOk [] roots := by
          refine parentsOk_of_forall _ _ [] ?_
            (fun x hx => absurd hx (List.not_mem_nil x))
          intro c hc p hp
          have hnone := runGen_forall (fun c => c.parentId = none)
            (fun reg r a reg' hg => generate_category_root_parent reg r a reg' hg)
            rootRs reg roots reg1 hroots c hc
          rw [hnone] at hp
          cases hp
        have hcats1 := catLevels_parentsOk levelRs roots reg1 1 cats1 reg2 hlev
          hrootsOk
        refine parentsOk_append _ _ _ hcats1 ?_
        refine parentsOk_of_forall _ _ [] ?_
          (fun x hx => absurd hx (List.not_mem_nil x))
        intro c hc p hp
        have hnone := runGen_forall (fun c => c.parentId = none)
          (fun reg r a reg' hg => generate_category_root_parent reg r a reg' hg)
          topupRs reg2 extra _ htop c hc
        rw [hnone] at hp
        cases hp

theorem generateCategories_slugs (reg : List String) (rootRs : List CatRand)
    (levelRs : List (List CatRand)) (topupRs : List CatRand)
    (cats : List CategoryRec) (reg' : List String)
    (h : generateCategories reg rootRs levelRs topupRs = some (cats, reg')) :
    (cats.map (fun c => c.slug)).Pairwise (· ≠ ·) := by
  rw [generateCategories] at h
  split at h
  · cases h
  · rename_i roots reg1 hroots
    split at h
    · cases h
    · rename_i cats1 reg2 hlev
      split at h
      · cases h
      · rename_i extra reg3 htop
        cases h
        obtain ⟨hreg1, hrpw, hrnot⟩ :=
          runGen_spec (generate_category_spec (fun _ => none)) rootRs reg roots
            reg1 hroots
        obtain ⟨hpw1, hmem1, hsub1⟩ := catLevels_slugs levelRs roots reg1 1
          cats1 reg2 hlev hrpw
          (by intro s hs
              rw [hreg1]
              exact List.mem_append_left _ (List.mem_reverse.mpr hs))
        obtain ⟨hreg3, hepw, henot⟩ :=
          runGen_spec (generate_category_spec (fun _ => none)) topupRs reg2
            extra _ htop
        rw [List.map_append, List.pairwise_append]
        refine ⟨hpw1, hepw, ?_⟩
        intro a ha b hb hab
        exact henot b hb (hab ▸ hmem1 a ha)

theorem mem_addItem (cid q uid pid : String) (d : String → List String) :
    pid ∈ addItem cid q d uid ↔ pid ∈ d uid ∨ (uid = cid ∧ q = pid) := by
  rw [addItem]
  by_cases hc : uid = cid
  · rw [if_pos hc]
    simp [hc, eq_comm]
  · rw [if_neg hc]
    simp [hc]

theorem mem_itemsFold (cid uid pid : String) :
    ∀ (items : List OrderItem) (d : String → List String),
    (pid ∈ (items.foldl (fun d it => addItem cid it.productId d) d) uid ↔
      pid ∈ d uid ∨ (uid = cid ∧ ∃ it ∈ items, it.productId = pid)) := by
  intro items
  induction items with
  | nil => intro d; simp
  | cons it tl ih =>
      intro d
      rw [List.foldl_cons, ih, mem_addItem]
      simp only [List.exists_mem_cons_iff]
      tauto

theorem mem_addOrder (uid pid : String) (o : OrderRec)
    (d : String → List String) :
    pid ∈ addOrder d o uid ↔
      pid ∈ d uid ∨
        (uid = o.customerId ∧ ∃ it ∈ o.items, it.productId = pid) := by
  rw [addOrder]
  exact mem_itemsFold o.customerId uid pid o.items d

theorem mem_ordersFold (uid pid : String) :
    ∀ (orders : List OrderRec) (d : String → List String),
    pid ∈ (orders.foldl addOrder d) uid ↔
      pid ∈ d uid ∨
        ∃ o ∈ orders, uid = o.customerId ∧
          ∃ it ∈ o.items, it.productId = pid := by
  intro orders
  induction orders with
  | nil => intro d; simp
  | cons o tl ih =>
      intro d
      rw [List.foldl_cons, ih, mem_addOrder]
      constructor
      · rintro ((hd | ⟨hc, it, hit, hp⟩) | ⟨o', ho', hc', it', hit', hp'⟩)
        · exact Or.inl hd
        · exact Or.inr ⟨o, List.mem_cons_self _ _, hc, it, hit, hp⟩
        · exact Or.inr ⟨o', List.mem_cons_of_mem _ ho', hc', it', hit', hp'⟩
      · rintro (hd | ⟨o', ho', hc', it', hit', hp'⟩)
        · exact Or.inl (Or.inl hd)
        · rcases List.mem_cons.mp ho' with rfl | ho'
          · exact Or.inl (Or.inr ⟨hc', it', hit', hp'⟩)
          · exact Or.inr ⟨o', ho', hc', it', hit', hp'⟩

theorem mem_buildOrderProducts (orders : List OrderRec) (uid pid : String) :
    pid ∈ buildOrderProducts orders uid ↔
      ∃ o ∈ orders, uid = o.customerId ∧
        ∃ it ∈ o.items, it.productId = pid := by
  rw [buildOrderProducts, mem_ordersFold]
  simp

theorem generate_product_review_some (productId userId : String)
    (op : String → List String) (pairs : List (String × String))
    (r : ReviewRand) (rev : ReviewRec) (pairs' : List (String × String))
    (h : generate_product_review productId userId op pairs r =
      (some rev, pairs')) :
    rev.productId = productId ∧ rev.userId = userId ∧
      (rev.verified = true ↔ productId ∈ op userId) := by
  rw [generate_product_review] at h
  split at h
  · simp at h
  · cases h
    refine ⟨rfl, rfl, ?_⟩
    simp only [decide_eq_true_eq]

theorem reviewLoop_verified (userIds productIds : List String)
    (orders : List OrderRec) (target : ℕ) (draws : ℕ → ℕ × ℕ × ReviewRand) :
    ∀ (fuel : ℕ) (acc : List ReviewRec) (pairs : List (String × String))
      (i : ℕ) (revs : List ReviewRec),
    reviewLoop userIds productIds (buildOrderProducts orders) target draws acc
      pairs i fuel = some revs →
    (∀ rev ∈ acc, VerifiedWrt orders rev) →
    ∀ rev ∈ revs, VerifiedWrt orders rev := by
  intro fuel
  induction fuel with
  | zero =>
      intro acc pairs i revs h hacc
      rw [reviewLoop] at h
      split at h
      · cases h
        intro rev hrev
        exact hacc rev (List.mem_reverse.mp hrev)
      · cases h
  | succ n ih =>
      intro acc pairs i revs h hacc
      rw [reviewLoop] at h
      split at h
      · cases h
        intro rev hrev
        exact hacc rev (List.mem_reverse.mp hrev)
      · dsimp only at h
        split at h
        · exact ih _ _ _ _ h hacc
        · rename_i rev' pairs' hgen
          refine ih _ _ _ _ h ?_
          intro rev hrev
          rcases List.mem_cons.mp hrev with hrev | hrev
          · subst hrev
            obtain ⟨hpid, huid, hver⟩ := generate_product_review_some _ _ _ _ _
              _ _ hgen
            rw [VerifiedWrt, hver, hpid, huid, mem_buildOrderProducts]
            constructor
            · rintro ⟨o, ho, hc, it, hit, hp⟩
              exact ⟨o, ho, hc.symm, it, hit, hp⟩
            · rintro ⟨o, ho, hc, it, hit, hp⟩
              exact ⟨o, ho, hc.symm, it, hit, hp⟩
          · exact hacc rev hrev

/-! ## 10. The claims -/

/-- C1: for every generated Order, `subtotal` equals the sum of its items'
`subtotal` fields, each item's `subtotal` equals `round(price * quantity, 2)`,
and `totalAmount` equals `round(subtotal + tax + shipping - discount, 2)`. -/
theorem order_money_formulas (customerIds : List String)
    (products : List ProductRec) (onumReg : List String) (r : OrderRand)
    (o : OrderRec) (reg' : List String)
    (h : generate_order customerIds products onumReg r = some (o, reg')) :
    o.subtotal = (o.items.map (fun it => it.subtotal)).sum ∧
    (∀ it ∈ o.items, it.subtotal = round2 (it.price * (it.quantity : ℚ))) ∧
    o.totalAmount = round2 (o.subtotal + o.tax + o.shipping - o.discount) := by
  cases hfl : freshLoop onumReg (fun i _ => r.orderNumbers i)
      (r.orderNumbers 0) 1 r.fuel with
  | none => rw [generate_order, hfl] at h; cases h
  | some onum =>
      rw [generate_order, hfl] at h
      cases h
      refine ⟨rfl, ?_, rfl⟩
      intro it hit
      rw [mkItems] at hit
      rcases List.mem_map.mp hit with ⟨pi, hpi, rfl⟩
      rfl

/-- C1 witness: the formulas hold on a concrete order over one 19.99-priced
product. -/
theorem order_money_formulas_witness :
    (orderResW.getD default).1.subtotal =
      ((orderResW.getD default).1.items.map (fun it => it.subtotal)).sum ∧
    (∀ it ∈ (orderResW.getD default).1.items,
      it.subtotal = round2 (it.price * (it.quantity : ℚ))) ∧
    (orderResW.getD default).1.totalAmount =
      round2 ((orderResW.getD default).1.subtotal +
        (orderResW.getD default).1.tax + (orderResW.getD default).1.shipping -
        (orderResW.getD default).1.discount) :=
  order_money_formulas ["u1"] [productW] [] orderRandW _ _ rfl

/-- C9: for every generated Order, `payment.amount` equals `totalAmount`
(both are assigned the same computed total, create.py lines 174 and 180). -/
theorem payment_amount_matches_total (customerIds : List String)
    (products : List ProductRec) (onumReg : List String) (r : OrderRand)
    (o : OrderRec) (reg' : List String)
    (h : generate_order customerIds products onumReg r = some (o, reg')) :
    o.payment.amount = o.totalAmount := by
  cases hfl : freshLoop onumReg (fun i _ => r.orderNumbers i)
      (r.orderNumbers 0) 1 r.fuel with
  | none => rw [generate_order, hfl] at h; cases h
  | some onum =>
      rw [generate_order, hfl] at h
      cases h
      rfl

/-- C9 witness: the equality on a concrete order. -/
theorem payment_amount_matches_total_witness :
    (orderResW.getD default).1.payment.amount =
      (orderResW.getD default).1.totalAmount :=
  payment_amount_matches_total ["u1"] [productW] [] orderRandW _ _ rfl

/-- C6 (amended): for every generated Order with status "delivered", both
`shippedDate` and `deliveredDate` are present, `shippedDate > orderDate`,
and `deliveredDate ≥ shippedDate` — the shipped offset is 1-5 days and the
delivered offset 5-10 days, drawn independently, so the two dates coincide
when both offsets are 5 days and strict `deliveredDate > shippedDate` is not
guaranteed. -/
theorem delivered_dates_bounds (customerIds : List String)
    (products : List ProductRec) (onumReg : List String) (r : OrderRand)
    (o : OrderRec) (reg' : List String)
    (h : generate_order customerIds products onumReg r = some (o, reg'))
    (hs : o.status = "delivered") :
    ∃ s d, o.shippedDate = some s ∧ o.deliveredDate = some d ∧
      o.orderDate < s ∧ s ≤ d := by
  cases hfl : freshLoop onumReg (fun i _ => r.orderNumbers i)
      (r.orderNumbers 0) 1 r.fuel with
  | none => rw [generate_order, hfl] at h; cases h
  | some onum =>
      rw [generate_order, hfl] at h
      cases h
      dsimp only at hs ⊢
      rw [hs]
      refine ⟨r.orderDate + (randint 1 5 r.shippedOffDraw : ℤ),
        r.orderDate + (randint 5 10 r.deliveredOffDraw : ℤ), ?_, ?_, ?_, ?_⟩
      · simp
      · simp
      · rw [randint]
        push_cast
        omega
      · rw [randint, randint]
        push_cast
        omega

/-- C6 counterexample: the claim's strict `deliveredDate > shippedDate`
fails on the concrete delivered order whose shipped offset and delivered
offset are both drawn as 5 days: the two dates are equal. -/
theorem delivered_dates_not_strict :
    ((orderResW.getD default).1.status = "delivered" ∧
      (orderResW.getD default).1.shippedDate = some 5 ∧
      (orderResW.getD default).1.deliveredDate = some 5) ∧
    ¬ deliveredStrict (orderResW.getD default).1 := by
  constructor
  · exact ⟨rfl, rfl, rfl⟩
  · intro hstrict
    obtain ⟨s, d, hsd, hdd, hlt1, hlt2⟩ := hstrict rfl
    have hs5 : s = 5 := by
      rw [show (orderResW.getD default).1.shippedDate = some 5 from rfl] at hsd
      exact (Option.some.inj hsd).symm
    have hd5 : d = 5 := by
      rw [show (orderResW.getD default).1.deliveredDate = some 5 from rfl] at hdd
      exact (Option.some.inj hdd).symm
    rw [hs5, hd5] at hlt2
    exact lt_irrefl _ hlt2

/-- C6 witness: the amended bounds hold on the concrete delivered order. -/
theorem delivered_dates_bounds_witness :
    ∃ s d, (orderResW.getD default).1.shippedDate = some s ∧
      (orderResW.getD default).1.deliveredDate = some d ∧
      (orderResW.getD default).1.orderDate < s ∧ s ≤ d :=
  delivered_dates_bounds ["u1"] [productW] [] orderRandW _ _ rfl rfl

/-- C8 (amended): in every generated User's profile, age is present exactly
when its own coin is heads, avatar is present exactly when its own coin is
heads, interests are the drawn word list when their coin is heads and the
empty list otherwise — each governed only by its own draw — while country is
always present, drawn from the fixed six-country list with no coin flip. -/
theorem profile_fields_presence (reg : List String) (r : UserRand)
    (u : UserRec) (reg' : List String)
    (h : generate_user reg r = some (u, reg')) :
    u.profile.age.isSome = r.ageCoin ∧
    (u.profile.interests = if r.interestsCoin then r.interests else []) ∧
    u.profile.avatar.isSome = r.avatarCoin ∧
    u.profile.country ∈ countryList := by
  cases hfl : freshLoop reg (fun i _ => r.emails i) (r.emails 0) 1 r.fuel with
  | none => rw [generate_user, hfl] at h; cases h
  | some email =>
      rw [generate_user, hfl] at h
      cases h
      refine ⟨?_, rfl, ?_, ?_⟩
      · cases r.ageCoin <;> rfl
      · cases r.avatarCoin <;> rfl
      · exact randChoice_mem _ _ _ (by simp [countryList])

/-- C8 counterexample: across every assignment of the three profile coin
flips (the only presence coins `generate_user` draws), with all other draws
fixed, the country field is present and identical — there is no coin flip
that can make the country absent, refuting the claimed independent
present-or-absent coin for it. -/
theorem profile_country_always_present :
    (coinCombos.all fun cb =>
      match generate_user [] (userRandC8 cb.1 cb.2.1 cb.2.2) with
      | some (u, _) => u.profile.country == "Vietnam"
      | none => false) = true := by decide

/-- C8 witness: the per-field presence equalities on a concrete user. -/
theorem profile_fields_presence_witness :
    (userResW.getD default).1.profile.age.isSome = userRandW.ageCoin ∧
    ((userResW.getD default).1.profile.interests =
      if userRandW.interestsCoin then userRandW.interests else []) ∧
    (userResW.getD default).1.profile.avatar.isSome = userRandW.avatarCoin ∧
    (userResW.getD default).1.profile.country ∈ countryList :=
  profile_fields_presence [] userRandW _ _ rfl

/-- C2: for every ProductReview generated by the coordinator's sampling loop
over the purchase index built from the generated orders, `verified` is true
exactly when some order of those has `customerId` equal to the review's
`userId` and a line item whose `productId` equals the review's `productId`. -/
theorem reviews_verified_iff_orders (userIds productIds : List String)
    (orders : List OrderRec) (target : ℕ) (draws : ℕ → ℕ × ℕ × ReviewRand)
    (pairs : List (String × String)) (fuel : ℕ) (revs : List ReviewRec)
    (h : reviewLoop userIds productIds (buildOrderProducts orders) target
      draws [] pairs 0 fuel = some revs) :
    ∀ rev ∈ revs, VerifiedWrt orders rev :=
  reviewLoop_verified userIds productIds orders target draws fuel [] pairs 0
    revs h (fun rev hrev => absurd hrev (List.not_mem_nil rev))

/-- C2 witness: one review sampled against one concrete order; the loop
succeeds and every produced review satisfies the verified-iff property. -/
theorem reviews_verified_iff_orders_witness :
    reviewsRunW.isSome = true ∧
    ∀ rev ∈ reviewsRunW.getD [],
      VerifiedWrt [(orderResW.getD default).1] rev :=
  ⟨rfl, reviews_verified_iff_orders ["u1"] ["p1"] [(orderResW.getD default).1]
    1 (fun _ => (0, 0, reviewRandW)) [] 2 _ rfl⟩

/-- C10: calling `generate_product_review` with a (productId, userId) pair
already in the dedupe registry returns `None` with the registry unchanged;
with a fresh pair it returns a record and the registry extended by exactly
that pair. -/
theorem review_dedupe_registry (productId userId : String)
    (op : String → List String) (pairs : List (String × String))
    (r : ReviewRand) :
    ((productId, userId) ∈ pairs →
      generate_product_review productId userId op pairs r = (none, pairs)) ∧
    ((productId, userId) ∉ pairs →
      (generate_product_review productId userId op pairs r).2 =
        (productId, userId) :: pairs ∧
      (generate_product_review productId userId op pairs r).1.isSome = true) := by
  constructor
  · intro hmem
    rw [generate_product_review, if_pos hmem]
  · intro hmem
    rw [generate_product_review, if_neg hmem]
    exact ⟨rfl, rfl⟩

/-- C10 witness: both branches at a concrete pair and registry. -/
theorem review_dedupe_registry_witness :
    (generate_product_review "p1" "u1" (fun _ => []) [("p1", "u1")] reviewRandW
      = (none, [("p1", "u1")])) ∧
    ((generate_product_review "p1" "u1" (fun _ => []) [] reviewRandW).2 =
      [("p1", "u1")] ∧
     (generate_product_review "p1" "u1" (fun _ => []) [] reviewRandW).1.isSome
      = true) :=
  ⟨(review_dedupe_registry "p1" "u1" (fun _ => []) [("p1", "u1")]
      reviewRandW).1 (by decide),
   (review_dedupe_registry "p1" "u1" (fun _ => []) [] reviewRandW).2
      (by decide)⟩

/-- C3: across a full run, no two generated Users share an email, no two
Categories share a slug, no two Products share a SKU and no two Orders share
an orderNumber: every generator rejects candidates already in its registry
and inserts the accepted value before returning. -/
theorem run_keys_unique (uReg : List String) (uRs : List UserRand)
    (users : List UserRec) (uReg' : List String)
    (hu : runGen generate_user uReg uRs = some (users, uReg'))
    (cReg : List String) (rootRs : List CatRand)
    (levelRs : List (List CatRand)) (topupRs : List CatRand)
    (cats : List CategoryRec) (cReg' : List String)
    (hc : generateCategories cReg rootRs levelRs topupRs = some (cats, cReg'))
    (pReg : List String) (pRs : List ProdRand) (prods : List ProductRec)
    (pReg' : List String)
    (hp : runGen generate_product pReg pRs = some (prods, pReg'))
    (customerIds : List String) (products : List ProductRec)
    (oReg : List String) (oRs : List OrderRand) (orders : List OrderRec)
    (oReg' : List String)
    (ho : runGen (generate_order customerIds products) oReg oRs =
      some (orders, oReg')) :
    (users.map (fun u => u.email)).Nodup ∧
    (cats.map (fun c => c.slug)).Nodup ∧
    (prods.map (fun p => p.sku)).Nodup ∧
    (orders.map (fun o => o.orderNumber)).Nodup :=
  ⟨(runGen_spec generate_user_spec uRs uReg users uReg' hu).2.1,
   generateCategories_slugs cReg rootRs levelRs topupRs cats cReg' hc,
   (runGen_spec generate_product_spec pRs pReg prods pReg' hp).2.1,
   (runGen_spec (generate_order_spec customerIds products) oRs oReg orders
     oReg' ho).2.1⟩

/-- C3 witness: concrete runs of all four stages with distinct keys. -/
theorem run_keys_unique_witness :
    ((usersRunW.getD ([], [])).1.map (fun u => u.email)).Nodup ∧
    ((catsRunW.getD ([], [])).1.map (fun c => c.slug)).Nodup ∧
    ((prodsRunW.getD ([], [])).1.map (fun p => p.sku)).Nodup ∧
    ((ordersRunW.getD ([], [])).1.map (fun o => o.orderNumber)).Nodup :=
  run_keys_unique [] [userRandW, userRandW2] _ _ rfl
    [] [catRandW "c1" "Aa Bb"] [[catRandW "c2" "Cc Dd"]] [catRandW "c3" "Ee Ff"]
    _ _ rfl
    [] [prodRandW "p1" "SKU-A", prodRandW "p2" "SKU-B"] _ _ rfl
    ["u1"] [productW] [] [orderRandW, orderRandW2] _ _ rfl

/-- C4: in the coordinator's category stage, every generated category with a
non-null parentId references the id of a category that appears strictly
earlier in the generated list (`ParentsOk [] cats` walks the list and allows
only already-seen ids as parents), and, when the generated ids are pairwise
distinct, no category is its own parent — the parent relation is a forest. -/
theorem categories_parents_strictly_earlier (reg : List String)
    (rootRs : List CatRand) (levelRs : List (List CatRand))
    (topupRs : List CatRand) (cats : List CategoryRec) (reg' : List String)
    (h : generateCategories reg rootRs levelRs topupRs = some (cats, reg'))
    (hids : (cats.map (fun c => c._id)).Nodup) :
    ParentsOk [] cats ∧ ∀ c ∈ cats, c.parentId ≠ some c._id := by
  have hok := generateCategories_parentsOk reg rootRs levelRs topupRs cats
    reg' h
  exact ⟨hok, parentsOk_no_self cats [] hok
    (fun c _ hc => absurd hc (List.not_mem_nil _)) hids⟩

/-- C4 witness: the concrete three-category run (root, child of the root,
top-up root) satisfies both conclusions. -/
theorem categories_parents_strictly_earlier_witness :
    ParentsOk [] (catsRunW.getD ([], [])).1 ∧
    ∀ c ∈ (catsRunW.getD ([], [])).1, c.parentId ≠ some c._id :=
  categories_parents_strictly_earlier [] [catRandW "c1" "Aa Bb"]
    [[catRandW "c2" "Cc Dd"]] [catRandW "c3" "Ee Ff"] _ _ rfl (by decide)

/-- C5: the product-category coordinator can emit two links with
`isPrimary = true` for one product: the generator itself randomizes
`isPrimary` (create.py line 126), and the coordinator's single-primary
bookkeeping (lines 275-277) only ever overwrites with `True`, never clears a
generator-set `True`.  With both generator coins heads and both coordinator
coins tails, the two links of product "p" are both primary, violating the
claimed at-most-one-primary invariant. -/
theorem linkProduct_two_primaries :
    ((linkProduct ["c1", "c2"] "p" 1 (fun _ => 0) (fun _ => pcRandW) []).1.countP
      (fun pc => pc.isPrimary)) = 2 := by decide

/-- C7: the uniqueness retry loops have no iteration cap and no failure
value: on a candidate stream that keeps colliding with the registry,
`freshLoop` (the email/slug/SKU/orderNumber loop shape) and the review
sampling loop are still running at every finite fuel bound — `none` here is
only the model's fuel running dry, the code raises nothing and loops on. -/
theorem retry_loops_uncapped :
    (∀ i fuel, freshLoop ["ORD-1"] (fun _ _ => "ORD-1") "ORD-1" i fuel
      = none) ∧
    (∀ i fuel, reviewLoop ["u1"] ["p1"] (fun _ => []) 1
      (fun _ => (0, 0, reviewRandW)) [] [("p1", "u1")] i fuel = none) := by
  constructor
  · intro i fuel
    induction fuel generalizing i with
    | zero => rfl
    | succ n ih => exact ih (i + 1)
  · intro i fuel
    induction fuel generalizing i with
    | zero => rfl
    | succ n ih => exact ih (i + 1)
